import Mathlib

/-!
# Verification of the Notdienst scheduling core

A shallow embedding of the scheduling repository (`app/scheduler/models.py`,
`app/scheduler/validator.py`, `app/scheduler/solver.py`) in Lean 4, together
with theorems settling the frozen claims about it.

Modelling conventions:
* Python `datetime.date` values are embedded as integer day numbers (`Int`)
  with day 0 chosen to be a Monday, so that Python's `date.weekday()` is `d % 7`
  (0 = Monday .. 6 = Sunday) and `date.isoweekday()` is `d % 7 + 1`.
  `timedelta(days=k)` is `+ k` and `(a - b).days` is `a - b`.
* Python floats are embedded as rationals (`ℚ`).  Every float the claims touch is
  a small sum of halves and hundreds, exactly representable in binary floating
  point, so the rational model agrees with the float computation there.
* Python dicts keep insertion order; a `defaultdict` group-by is embedded as the
  list of keys in order of first occurrence (`dedupKeys`) plus a filter per key.
  A dict comprehension `{s.identifier: s for s in staff_list}` lets later entries
  overwrite earlier ones, hence `staffLookup` finds the *last* match.
* Python `sorted` (stable) is embedded with `List.insertionSort` (also stable).
* The human-readable `description` strings of violations are omitted from the
  embedding; every claim refers to violations only through `constraint_name`.
-/

namespace Scheduling

/-- Python `date.weekday()`: 0 = Monday .. 6 = Sunday. -/
def pyWeekday (d : Int) : Int := d % 7

/-- Python `date.isoweekday()`: 1 = Monday .. 7 = Sunday. -/
def isoWeekday (d : Int) : Int := d % 7 + 1

/-- `class Beruf(str, Enum)` from `models.py`. -/
inductive Beruf
  | TFA
  | AZUBI
  | INTERN
deriving DecidableEq, Repr

/-- `class Abteilung(str, Enum)` from `models.py`. -/
inductive Abteilung
  | STATION
  | OP
  | OTHER
deriving DecidableEq, Repr

/-- `class ShiftType(str, Enum)` from `models.py` (13 symbolic values). -/
inductive ShiftType
  | SATURDAY_10_21
  | SATURDAY_10_22
  | SATURDAY_10_19
  | SUNDAY_8_20
  | SUNDAY_10_22
  | SUNDAY_8_2030
  | NIGHT_SUN_MON
  | NIGHT_MON_TUE
  | NIGHT_TUE_WED
  | NIGHT_WED_THU
  | NIGHT_THU_FRI
  | NIGHT_FRI_SAT
  | NIGHT_SAT_SUN
deriving DecidableEq, Repr

/-- The source tests `shift_type.value.startswith("Sa_")`; the three `Sa_*`
enum values are exactly the Saturday shift types. -/
def ShiftType.isSaturdayType : ShiftType → Bool
  | .SATURDAY_10_21 | .SATURDAY_10_22 | .SATURDAY_10_19 => true
  | _ => false

/-- The source tests `shift_type.value.startswith("So_")`; the three `So_*`
enum values are exactly the Sunday shift types. -/
def ShiftType.isSundayType : ShiftType → Bool
  | .SUNDAY_8_20 | .SUNDAY_10_22 | .SUNDAY_8_2030 => true
  | _ => false

/-- The source tests `shift_type.value.startswith("N_")`; the seven `N_*`
enum values are exactly the night shift types. -/
def ShiftType.isNightType : ShiftType → Bool
  | .NIGHT_SUN_MON | .NIGHT_MON_TUE | .NIGHT_TUE_WED | .NIGHT_WED_THU
  | .NIGHT_THU_FRI | .NIGHT_FRI_SAT | .NIGHT_SAT_SUN => true
  | _ => false

/-- `class Staff(BaseModel)` from `models.py`.  The `birthday` field is omitted:
none of the embedded operations reads it. -/
structure Staff where
  name : String
  identifier : String
  adult : Bool
  hours : Int
  beruf : Beruf
  abteilung : Abteilung := .OTHER
  reception : Bool
  nd_possible : Bool
  nd_alone : Bool
  nd_max_consecutive : Option Int := none
  nd_min_consecutive : Int := 2
  nd_exceptions : List Int := []
deriving DecidableEq, Repr

/-- `Staff.effective_nights_weight` from `models.py`: Azubis always 1.0;
non-Azubis 0.5 when paired, 1.0 when solo. -/
def Staff.effective_nights_weight (self : Staff) (is_paired : Bool) : ℚ :=
  if self.beruf = .AZUBI then 1
  else if is_paired then 1/2 else 1

/-- `Staff.can_work_shift` from `models.py`, with the same cascade of
early-return checks. -/
def Staff.can_work_shift (self : Staff) (shift_type : ShiftType) (shift_date : Int) :
    Bool :=
  -- Minors cannot work Sundays
  if !self.adult && shift_type.isSundayType then false
  -- Interns never work weekends
  else if self.beruf = .INTERN && (shift_type.isSaturdayType || shift_type.isSundayType)
    then false
  -- Night shifts: require nd_possible
  else if shift_type.isNightType && !self.nd_possible then false
  -- Night shifts: check nd_exceptions (weekday restrictions, 1=Mon .. 7=Sun)
  else if shift_type.isNightType && self.nd_exceptions.contains (isoWeekday shift_date)
    then false
  -- Saturday 10-19: Azubis only
  else if shift_type = .SATURDAY_10_19 then self.beruf = .AZUBI
  -- Saturday 10-21: TFA or Azubi with reception=True
  else if shift_type = .SATURDAY_10_21 then
    if self.beruf = .AZUBI then self.reception else self.beruf = .TFA
  -- Saturday 10-22: TFA only
  else if shift_type = .SATURDAY_10_22 then self.beruf = .TFA
  -- Sunday 8-20: TFA only
  else if shift_type = .SUNDAY_8_20 then self.beruf = .TFA
  -- Sunday 8-20:30: Adult Azubis only
  else if shift_type = .SUNDAY_8_2030 then self.beruf = .AZUBI && self.adult
  -- Sunday 10-22: TFA only
  else if shift_type = .SUNDAY_10_22 then self.beruf = .TFA
  else true

/-- `class Shift(BaseModel)` from `models.py`. -/
structure Shift where
  shift_type : ShiftType
  shift_date : Int
  requires_pair : Bool := false
deriving DecidableEq, Repr

/-- `Shift.is_night_shift` from `models.py`. -/
def Shift.is_night_shift (self : Shift) : Bool := self.shift_type.isNightType

/-- `Shift.is_weekend_shift` from `models.py`. -/
def Shift.is_weekend_shift (self : Shift) : Bool :=
  self.shift_type.isSaturdayType || self.shift_type.isSundayType

/-- `Shift.get_next_day` from `models.py`. -/
def Shift.get_next_day (self : Shift) : Int := self.shift_date + 1

/-- `class Assignment(BaseModel)` from `models.py`. -/
structure Assignment where
  shift : Shift
  staff_identifier : String
  is_paired : Bool := false
deriving DecidableEq, Repr

/-- `class Schedule(BaseModel)` from `models.py`. -/
structure Schedule where
  quarter_start : Int
  quarter_end : Int
  assignments : List Assignment := []
deriving DecidableEq, Repr

/-- `Schedule.get_staff_assignments` from `models.py`. -/
def Schedule.get_staff_assignments (self : Schedule) (staff_identifier : String) :
    List Assignment :=
  self.assignments.filter (fun a => a.staff_identifier = staff_identifier)

/-- `Schedule.get_shift_assignments` from `models.py`. -/
def Schedule.get_shift_assignments (self : Schedule) (shift : Shift) :
    List Assignment :=
  self.assignments.filter (fun a =>
    a.shift.shift_date = shift.shift_date && a.shift.shift_type = shift.shift_type)

/-- `Schedule.count_effective_nights` from `models.py`: sums the per-assignment
weights, taking the pairing information from the *stored* `is_paired` flag of
each night assignment. -/
def Schedule.count_effective_nights (self : Schedule) (staff_identifier : String)
    (staff : Option Staff := none) : ℚ :=
  let night_assignments :=
    (self.get_staff_assignments staff_identifier).filter (fun a => a.shift.is_night_shift)
  match staff with
  | some st => (night_assignments.map (fun a => st.effective_nights_weight a.is_paired)).sum
  | none =>
      -- Fallback without staff object (legacy behavior)
      (night_assignments.map (fun a => if a.is_paired then (1:ℚ)/2 else 1)).sum

/-- `Schedule.count_weekend_shifts` from `models.py`. -/
def Schedule.count_weekend_shifts (self : Schedule) (staff_identifier : String) : Int :=
  ((self.get_staff_assignments staff_identifier).filter
    (fun a => a.shift.is_weekend_shift)).length

/-- `Schedule.count_total_notdienst` from `models.py`. -/
def Schedule.count_total_notdienst (self : Schedule) (staff_identifier : String)
    (staff : Option Staff := none) : ℚ :=
  (self.count_weekend_shifts staff_identifier : ℚ) +
    self.count_effective_nights staff_identifier staff

/-- Loop body of `generate_quarter_shifts` from `models.py`: the shifts emitted
for one day, in emission order (Saturday/Sunday day shifts first, then the
night shift whose type matches the weekday). -/
def shifts_for_day (current_date : Int) : List Shift :=
  let weekday := pyWeekday current_date
  let day_shifts : List Shift :=
    if weekday = 5 then
      [⟨.SATURDAY_10_21, current_date, false⟩,
       ⟨.SATURDAY_10_22, current_date, false⟩,
       ⟨.SATURDAY_10_19, current_date, false⟩]
    else if weekday = 6 then
      [⟨.SUNDAY_8_20, current_date, false⟩,
       ⟨.SUNDAY_10_22, current_date, false⟩,
       ⟨.SUNDAY_8_2030, current_date, false⟩]
    else []
  let night_type : ShiftType :=
    if weekday = 6 then .NIGHT_SUN_MON
    else if weekday = 0 then .NIGHT_MON_TUE
    else if weekday = 1 then .NIGHT_TUE_WED
    else if weekday = 2 then .NIGHT_WED_THU
    else if weekday = 3 then .NIGHT_THU_FRI
    else if weekday = 4 then .NIGHT_FRI_SAT
    else .NIGHT_SAT_SUN
  day_shifts ++ [⟨night_type, current_date, false⟩]

/-- `generate_quarter_shifts` from `models.py`: the `while current_date <
quarter_start + 91` loop visits exactly the 91 day offsets 0..90 in order. -/
def generate_quarter_shifts (quarter_start : Int) : List Shift :=
  (List.range 91).flatMap (fun i => shifts_for_day (quarter_start + i))

/-- `class Vacation(BaseModel)` from `models.py`. -/
structure Vacation where
  identifier : String
  start_date : Int
  end_date : Int
deriving DecidableEq, Repr

/-- `Vacation.get_dates` from `models.py`: all dates from `start_date` to
`end_date` inclusive (empty when `end_date < start_date`). -/
def Vacation.get_dates (self : Vacation) : List Int :=
  (List.range (self.end_date - self.start_date + 1).toNat).map
    (fun (i : ℕ) => self.start_date + (i : Int))

/-- `get_staff_unavailable_dates` from `models.py`.  The Python function builds
a `set`; it is embedded as a duplicate-free list (insert-if-absent). -/
def get_staff_unavailable_dates (vacations : List Vacation)
    (staff_identifier : String) : List Int :=
  vacations.foldl
    (fun acc v =>
      if v.identifier = staff_identifier then
        v.get_dates.foldl (fun acc2 d => if d ∈ acc2 then acc2 else acc2 ++ [d]) acc
      else acc)
    []

/-- `calculate_available_days` from `models.py`. -/
def calculate_available_days (staff_identifier : String) (vacations : List Vacation)
    (quarter_start : Int) (quarter_end : Int) : Int :=
  let total_days : Int := (quarter_end - quarter_start) + 1
  let unavailable := get_staff_unavailable_dates vacations staff_identifier
  let vacation_days_in_quarter : Int :=
    ((unavailable.filter (fun d => quarter_start ≤ d && d ≤ quarter_end)).length : Int)
  total_days - vacation_days_in_quarter

/-! ## Claim C6: the eligibility rule table -/

/-- The per-shift-type clause of the spec's eligibility rule table (§4.2):
`SATURDAY_10_19` Azubi-only; `SATURDAY_10_21` TFA or reception-capable Azubi;
`SATURDAY_10_22`, `SUNDAY_8_20`, `SUNDAY_10_22` TFA-only; `SUNDAY_8_2030`
adult-Azubi-only; everything else unrestricted. -/
def specTypeRule (s : Staff) : ShiftType → Bool
  | .SATURDAY_10_19 => s.beruf = .AZUBI
  | .SATURDAY_10_21 => s.beruf = .TFA || (s.beruf = .AZUBI && s.reception)
  | .SATURDAY_10_22 => s.beruf = .TFA
  | .SUNDAY_8_20 => s.beruf = .TFA
  | .SUNDAY_10_22 => s.beruf = .TFA
  | .SUNDAY_8_2030 => s.beruf = .AZUBI && s.adult
  | _ => true

/-- The spec's eligibility table (§4.2) as one conjunction: no Sunday shift for
minors, no weekend shift for Interns, night shifts need `nd_possible` and a
weekday outside `nd_exceptions`, plus the per-type clause. -/
def specCanWork (s : Staff) (t : ShiftType) (d : Int) : Bool :=
  (s.adult || !t.isSundayType) &&
  (!(s.beruf = .INTERN) || !(t.isSaturdayType || t.isSundayType)) &&
  (!t.isNightType || (s.nd_possible && !(s.nd_exceptions.contains (isoWeekday d)))) &&
  specTypeRule s t

/-- C6: for every staff member, shift type, and date, `can_work_shift` agrees
with the spec's eligibility rule table. -/
theorem C6_can_work_shift_matches_rule_table (s : Staff) (t : ShiftType) (d : Int) :
    s.can_work_shift t d = specCanWork s t d := by
  cases t <;>
    simp only [Staff.can_work_shift, specCanWork, specTypeRule,
      ShiftType.isSaturdayType, ShiftType.isSundayType, ShiftType.isNightType] <;>
    cases s.adult <;> cases s.nd_possible <;> cases s.reception <;>
    cases hb : s.beruf <;>
    by_cases he : s.nd_exceptions.contains (isoWeekday d) <;>
    simp_all

/-! ## Claim C7: the shift catalogue generator -/

/-- The spec's weekday-to-night-shift-type table (§4.1): Mon→`NIGHT_MON_TUE`,
…, Sat→`NIGHT_SAT_SUN`, Sun→`NIGHT_SUN_MON` (weekday 0 = Monday). -/
def specNightTypeFor (w : Int) : ShiftType :=
  if w = 0 then .NIGHT_MON_TUE
  else if w = 1 then .NIGHT_TUE_WED
  else if w = 2 then .NIGHT_WED_THU
  else if w = 3 then .NIGHT_THU_FRI
  else if w = 4 then .NIGHT_FRI_SAT
  else if w = 5 then .NIGHT_SAT_SUN
  else .NIGHT_SUN_MON

/-- Whether the spec's catalogue (§4.1) contains shift type `t` on a day of
weekday `w`: always the matching night shift; the three Saturday types on
Saturday (weekday 5); the three Sunday types on Sunday (weekday 6). -/
def specCatalogueHas (w : Int) (t : ShiftType) : Bool :=
  t = specNightTypeFor w ||
  (w = 5 && (t = .SATURDAY_10_21 || t = .SATURDAY_10_22 || t = .SATURDAY_10_19)) ||
  (w = 6 && (t = .SUNDAY_8_20 || t = .SUNDAY_10_22 || t = .SUNDAY_8_2030))

theorem pyWeekday_nonneg (d : Int) : 0 ≤ pyWeekday d :=
  Int.emod_nonneg d (by decide)

theorem pyWeekday_lt_seven (d : Int) : pyWeekday d < 7 :=
  Int.emod_lt_of_pos d (by decide)

set_option maxHeartbeats 1000000 in
theorem count_shifts_for_day (c : Int) (sh : Shift) :
    (shifts_for_day c).count sh =
      if sh.shift_date = c ∧ sh.requires_pair = false ∧
          specCatalogueHas (pyWeekday c) sh.shift_type = true then 1 else 0 := by
  obtain ⟨st, sd, rp⟩ := sh
  have h0 := pyWeekday_nonneg c
  have h7 := pyWeekday_lt_seven c
  simp only [shifts_for_day]
  generalize hw : pyWeekday c = w at h0 h7 ⊢
  interval_cases w <;> by_cases hd : sd = c <;> cases rp <;> cases st <;>
    simp [List.count_cons, List.count_nil, specCatalogueHas, specNightTypeFor,
      Shift.mk.injEq, hd]

theorem count_flatMap_shifts (qs : Int) (sh : Shift) (n : ℕ) :
    (((List.range n).flatMap (fun i => shifts_for_day (qs + i))).count sh) =
      if qs ≤ sh.shift_date ∧ sh.shift_date < qs + n ∧ sh.requires_pair = false ∧
          specCatalogueHas (pyWeekday sh.shift_date) sh.shift_type = true
        then 1 else 0 := by
  induction n with
  | zero =>
      simp only [List.range_zero, List.flatMap_nil, List.count_nil]
      rw [if_neg]
      rintro ⟨h1, h2, -⟩
      push_cast at h2
      omega
  | succ n ih =>
      rw [List.range_succ, List.flatMap_append, List.count_append, ih,
        List.flatMap_cons, List.flatMap_nil, List.append_nil, count_shifts_for_day]
      have hcast : ((n + 1 : ℕ) : Int) = ((n : ℕ) : Int) + 1 := by push_cast; ring
      by_cases hA : qs ≤ sh.shift_date ∧ sh.shift_date < qs + (n:ℕ) ∧
          sh.requires_pair = false ∧
          specCatalogueHas (pyWeekday sh.shift_date) sh.shift_type = true
      · obtain ⟨hA1, hA2, hA3, hA4⟩ := hA
        have hnB : ¬(sh.shift_date = qs + (n:ℕ) ∧ sh.requires_pair = false ∧
            specCatalogueHas (pyWeekday (qs + (n:ℕ))) sh.shift_type = true) := by
          rintro ⟨h1, -, -⟩
          omega
        have hC : qs ≤ sh.shift_date ∧ sh.shift_date < qs + ((n + 1 : ℕ) : Int) ∧
            sh.requires_pair = false ∧
            specCatalogueHas (pyWeekday sh.shift_date) sh.shift_type = true := by
          refine ⟨hA1, ?_, hA3, hA4⟩
          rw [hcast]
          omega
        rw [if_pos ⟨hA1, hA2, hA3, hA4⟩, if_neg hnB, if_pos hC]
      · rw [if_neg hA]
        by_cases hB : sh.shift_date = qs + (n:ℕ) ∧ sh.requires_pair = false ∧
            specCatalogueHas (pyWeekday (qs + (n:ℕ))) sh.shift_type = true
        · obtain ⟨hB1, hB2, hB3⟩ := hB
          have hC : qs ≤ sh.shift_date ∧ sh.shift_date < qs + ((n + 1 : ℕ) : Int) ∧
              sh.requires_pair = false ∧
              specCatalogueHas (pyWeekday sh.shift_date) sh.shift_type = true := by
            refine ⟨by omega, ?_, hB2, ?_⟩
            · rw [hcast]
              omega
            · rw [hB1]
              exact hB3
          rw [if_pos ⟨hB1, hB2, hB3⟩, if_pos hC]
        · have hnC : ¬(qs ≤ sh.shift_date ∧ sh.shift_date < qs + ((n + 1 : ℕ) : Int) ∧
              sh.requires_pair = false ∧
              specCatalogueHas (pyWeekday sh.shift_date) sh.shift_type = true) := by
            rintro ⟨h1, h2, h3, h4⟩
            rw [hcast] at h2
            have hcase : sh.shift_date < qs + (n:ℕ) ∨ sh.shift_date = qs + (n:ℕ) := by
              omega
            rcases hcase with hlt | heq
            · exact hA ⟨h1, hlt, h3, h4⟩
            · refine hB ⟨heq, h3, ?_⟩
              rw [← heq]
              exact h4
          rw [if_neg hB, if_neg hnC]

/-- C7: for every `quarter_start`, the generated catalogue contains each shift
`sh` exactly once when `sh` falls inside the 91-day horizon and matches the
spec table for its day's weekday (the matching night shift every day, the
three Saturday types on Saturdays, the three Sunday types on Sundays), and
never otherwise. -/
theorem C7_generate_quarter_shifts_catalogue (quarter_start : Int) (sh : Shift) :
    (generate_quarter_shifts quarter_start).count sh =
      if quarter_start ≤ sh.shift_date ∧ sh.shift_date < quarter_start + 91 ∧
          sh.requires_pair = false ∧
          specCatalogueHas (pyWeekday sh.shift_date) sh.shift_type = true
        then 1 else 0 := by
  have h := count_flatMap_shifts quarter_start sh 91
  simpa using h

/-! ## The validator (`validator.py`) -/

/-- Insert-if-absent at the back, modelling addition of a new key to a Python
dict (or element to an ordered set model). -/
def insertKey [DecidableEq α] (acc : List α) (a : α) : List α :=
  if a ∈ acc then acc else acc ++ [a]

/-- The keys of a Python dict built by grouping a stream, in first-occurrence
(= insertion) order. -/
def dedupKeys [DecidableEq α] (l : List α) : List α := l.foldl insertKey []

/-- `staff_dict = {s.identifier: s for s in staff_list}` followed by
`staff_dict.get(identifier)`: later duplicate identifiers overwrite earlier
ones, so this finds the *last* matching staff member. -/
def staffLookup (staff_list : List Staff) (identifier : String) : Option Staff :=
  staff_list.reverse.find? (fun s => s.identifier = identifier)

/-- `class ConstraintViolation` from `validator.py`.  The free-text
`description` argument is omitted: every claim identifies violations through
`constraint_name` alone. -/
structure ConstraintViolation where
  constraint_name : String
  severity : String := "hard"
deriving DecidableEq, Repr

/-- Python `sorted(assignments, key=lambda a: a.shift.shift_date)` (a stable
sort by date; `insertionSort` is likewise stable). -/
def sortByDate (l : List Assignment) : List Assignment :=
  l.insertionSort (fun a b => a.shift.shift_date ≤ b.shift.shift_date)

/-- `_check_minor_sunday_constraint` from `validator.py`. -/
def _check_minor_sunday_constraint (schedule : Schedule) (staff_dict : List Staff) :
    List ConstraintViolation :=
  schedule.assignments.filterMap (fun assignment =>
    if assignment.shift.shift_type.isSundayType then
      match staffLookup staff_dict assignment.staff_identifier with
      | some staff => if !staff.adult then some ⟨"Minor Sunday Ban", "hard"⟩ else none
      | none => none
    else none)

/-- `_check_same_day_double_booking` from `validator.py`: group assignments by
`(staff_identifier, shift_date)`, one violation per key with > 1 assignment. -/
def _check_same_day_double_booking (schedule : Schedule) : List ConstraintViolation :=
  let keys := dedupKeys (schedule.assignments.map
    (fun a => (a.staff_identifier, a.shift.shift_date)))
  keys.filterMap (fun k =>
    let group := schedule.assignments.filter
      (fun a => (a.staff_identifier, a.shift.shift_date) = k)
    if group.length > 1 then some ⟨"Same Day Double Booking", "hard"⟩ else none)

/-- `_check_nd_alone_improper_pairing` from `validator.py`. -/
def _check_nd_alone_improper_pairing (schedule : Schedule) (staff_dict : List Staff) :
    List ConstraintViolation :=
  let nightAssignments := schedule.assignments.filter (fun a => a.shift.is_night_shift)
  let nightKeys := dedupKeys (nightAssignments.map
    (fun a => (a.shift.shift_date, a.shift.shift_type)))
  nightKeys.filterMap (fun k =>
    -- Skip vet-present nights (nd_alone doesn't apply there)
    if k.2 = .NIGHT_SUN_MON ∨ k.2 = .NIGHT_MON_TUE then none
    else
      let assignments := nightAssignments.filter
        (fun a => (a.shift.shift_date, a.shift.shift_type) = k)
      if assignments.length < 2 then none
      else
        let resolved := assignments.filterMap
          (fun a => staffLookup staff_dict a.staff_identifier)
        let nd_alone_true_staff := (resolved.filter (fun s => s.nd_alone)).map
          (fun s => s.name)
        if nd_alone_true_staff ≠ ([] : List String) ∧ assignments.length > 1 then
          some ⟨"ND Alone Improper Pairing", "hard"⟩
        else none)

/-- `_check_intern_night_capacity` from `validator.py`: on vet-present nights
(Sun-Mon, Mon-Tue) exactly 1 non-Azubi and at most 1 Azubi. -/
def _check_intern_night_capacity (schedule : Schedule) (staff_dict : List Staff) :
    List ConstraintViolation :=
  let nightAssignments := schedule.assignments.filter (fun a => a.shift.is_night_shift)
  let nightKeys := dedupKeys (nightAssignments.map
    (fun a => (a.shift.shift_date, a.shift.shift_type)))
  nightKeys.flatMap (fun k =>
    if k.2 = .NIGHT_SUN_MON ∨ k.2 = .NIGHT_MON_TUE then
      let assignments := nightAssignments.filter
        (fun a => (a.shift.shift_date, a.shift.shift_type) = k)
      let resolved := assignments.filterMap
        (fun a => staffLookup staff_dict a.staff_identifier)
      let azubis := (resolved.filter (fun s => s.beruf = .AZUBI)).map (fun s => s.name)
      let non_azubis := (resolved.filter (fun s => ¬(s.beruf = .AZUBI))).map
        (fun s => s.name)
      (if non_azubis.length = 0 then [⟨"Intern Night No Non-Azubi", "hard"⟩]
       else if non_azubis.length > 1 then [⟨"Vet Night Over Capacity", "hard"⟩]
       else []) ++
      (if azubis.length > 1 then [⟨"Multiple Azubis on Night", "hard"⟩] else [])
    else [])

/-- `_check_intern_weekend_constraint` from `validator.py`. -/
def _check_intern_weekend_constraint (schedule : Schedule) (staff_dict : List Staff) :
    List ConstraintViolation :=
  schedule.assignments.filterMap (fun assignment =>
    if assignment.shift.is_weekend_shift then
      match staffLookup staff_dict assignment.staff_identifier with
      | some staff =>
          if staff.beruf = .INTERN then some ⟨"Intern Weekend Ban", "hard"⟩ else none
      | none => none
    else none)

/-- `_check_night_pairing_constraint` from `validator.py`. -/
def _check_night_pairing_constraint (schedule : Schedule) (staff_dict : List Staff) :
    List ConstraintViolation :=
  let nightAssignments := schedule.assignments.filter (fun a => a.shift.is_night_shift)
  let nightKeys := dedupKeys (nightAssignments.map
    (fun a => (a.shift.shift_date, a.shift.shift_type)))
  nightKeys.flatMap (fun k =>
    let assignments := nightAssignments.filter
      (fun a => (a.shift.shift_date, a.shift.shift_type) = k)
    let resolved := assignments.filterMap
      (fun a => staffLookup staff_dict a.staff_identifier)
    let azubis := resolved.filter (fun s => s.beruf = .AZUBI)
    let non_azubis := resolved.filter (fun s => ¬(s.beruf = .AZUBI))
    let nd_alone_false_staff := resolved.filter (fun s => !s.nd_alone)
    -- Rule: Two Azubis can never be paired
    (if azubis.length > 1 then [⟨"Multiple Azubis on Night", "hard"⟩] else []) ++
    -- Rule: Azubi must be paired with non-Azubi (one violation per Azubi)
    (azubis.filterMap (fun _azubi =>
      if non_azubis.length = 0 then some ⟨"Azubi Night Pairing", "hard"⟩ else none)) ++
    -- Rule: nd_alone=False must be paired (except intern-present nights)
    (let is_intern_present := k.2 = .NIGHT_SUN_MON ∨ k.2 = .NIGHT_MON_TUE
     nd_alone_false_staff.filterMap (fun staff =>
       if staff.beruf = .AZUBI then none
       else if ¬is_intern_present ∧ assignments.length < 2 then
         some ⟨"Night Pairing Required", "hard"⟩
       else none)))

/-- `_check_same_day_next_day_constraint` from `validator.py`. -/
def _check_same_day_next_day_constraint (schedule : Schedule) :
    List ConstraintViolation :=
  let staffKeys := dedupKeys (schedule.assignments.map (fun a => a.staff_identifier))
  staffKeys.flatMap (fun staff_id =>
    let assignments := schedule.assignments.filter
      (fun a => a.staff_identifier = staff_id)
    let night_shifts := assignments.filter (fun a => a.shift.is_night_shift)
    night_shifts.flatMap (fun night_assignment =>
      let night_date := night_assignment.shift.shift_date
      let next_date := night_assignment.shift.get_next_day
      assignments.filterMap (fun assignment =>
        if assignment.shift.is_night_shift then none
        else if assignment.shift.shift_date = night_date ∨
            assignment.shift.shift_date = next_date then
          some ⟨"Night/Day Conflict", "hard"⟩
        else none)))

/-- Inner loop of `_find_consecutive_blocks` from `validator.py`: `prev` is the
previously visited assignment, `current` the block being grown, `blocks` the
finished blocks. -/
def fcbGo (prev : Assignment) (rest : List Assignment) (current : List Assignment)
    (blocks : List (List Assignment)) : List (List Assignment) :=
  match rest with
  | [] => blocks ++ [current]
  | a :: rest2 =>
      -- If gap is <= 1 day, continue current block
      if a.shift.shift_date - prev.shift.shift_date ≤ 1 then
        fcbGo a rest2 (current ++ [a]) blocks
      else
        fcbGo a rest2 [a] (blocks ++ [current])

/-- `_find_consecutive_blocks` from `validator.py` (gaps > 1 day break blocks;
input is already sorted by date). -/
def _find_consecutive_blocks : List Assignment → List (List Assignment)
  | [] => []
  | a :: rest => fcbGo a rest [a] []

/-- Date of the first assignment of a block.  Blocks produced by
`_find_consecutive_blocks` are always nonempty, so the `[]` case is
unreachable. -/
def headAssignmentDate (block : List Assignment) : Int :=
  match block with
  | [] => 0
  | a :: _ => a.shift.shift_date

/-- Per-staff loop of `_check_three_week_block_constraint`: Python emits, for
each block, at most one violation — exactly when some later block starts
strictly less than 21 days after this block's start. -/
def threeWeekGo : List (List Assignment) → List ConstraintViolation
  | [] => []
  | block1 :: rest =>
      (if rest.any (fun block2 =>
          headAssignmentDate block2 - headAssignmentDate block1 < 21)
       then [⟨"3-Week Block Limit", "hard"⟩] else []) ++ threeWeekGo rest

/-- `_check_three_week_block_constraint` from `validator.py` (21-day spacing of
block starts). -/
def _check_three_week_block_constraint (schedule : Schedule) :
    List ConstraintViolation :=
  let staffKeys := dedupKeys (schedule.assignments.map (fun a => a.staff_identifier))
  staffKeys.flatMap (fun staff_id =>
    let assignments := schedule.assignments.filter
      (fun a => a.staff_identifier = staff_id)
    let sorted_assignments := sortByDate assignments
    threeWeekGo (_find_consecutive_blocks sorted_assignments))

/-- `_check_weekend_isolation_constraint` from `validator.py`. -/
def _check_weekend_isolation_constraint (schedule : Schedule) :
    List ConstraintViolation :=
  let staffKeys := dedupKeys (schedule.assignments.map (fun a => a.staff_identifier))
  staffKeys.flatMap (fun staff_id =>
    let assignments := schedule.assignments.filter
      (fun a => a.staff_identifier = staff_id)
    let weekend_assignments := assignments.filter (fun a => a.shift.is_weekend_shift)
    -- `all_dates_worked` is a Python set, used only for membership tests
    let all_dates_worked := assignments.map (fun a => a.shift.shift_date)
    weekend_assignments.filterMap (fun we_assignment =>
      let we_date := we_assignment.shift.shift_date
      if (we_date - 1) ∈ all_dates_worked ∨ (we_date + 1) ∈ all_dates_worked then
        some ⟨"Weekend Isolation", "hard"⟩
      else none))

/-- Per-staff body of `_check_min_consecutive_nights_constraint` from
`validator.py`: unresolvable staff and Azubis are skipped, every other staff
member gets one violation per consecutive night block of length < 2. -/
def minConsecViolationsFor (staff_dict : List Staff) (staff_id : String)
    (night_assignments : List Assignment) : List ConstraintViolation :=
  match staffLookup staff_dict staff_id with
  | none => []
  | some staff =>
      if staff.beruf = .AZUBI then []  -- Azubis can do single nights
      else
        (_find_consecutive_blocks (sortByDate night_assignments)).filterMap (fun block =>
          if block.length < 2 then some ⟨"Min Consecutive Nights", "hard"⟩ else none)

/-- `_check_min_consecutive_nights_constraint` from `validator.py` (note: the
fixed minimum 2 for non-Azubis; the staff's own `nd_min_consecutive` is never
read). -/
def _check_min_consecutive_nights_constraint (schedule : Schedule)
    (staff_dict : List Staff) : List ConstraintViolation :=
  let nightAssignments := schedule.assignments.filter (fun a => a.shift.is_night_shift)
  let staffKeys := dedupKeys (nightAssignments.map (fun a => a.staff_identifier))
  staffKeys.flatMap (fun staff_id =>
    minConsecViolationsFor staff_dict staff_id
      (nightAssignments.filter (fun a => a.staff_identifier = staff_id)))

/-- `_check_nd_max_consecutive_constraint` from `validator.py`. -/
def _check_nd_max_consecutive_constraint (schedule : Schedule)
    (staff_dict : List Staff) : List ConstraintViolation :=
  let nightAssignments := schedule.assignments.filter (fun a => a.shift.is_night_shift)
  let staffKeys := dedupKeys (nightAssignments.map (fun a => a.staff_identifier))
  staffKeys.flatMap (fun staff_id =>
    match staffLookup staff_dict staff_id with
    | none => []
    | some staff =>
        match staff.nd_max_consecutive with
        | none => []
        | some max_consecutive =>
            (_find_consecutive_blocks (sortByDate (nightAssignments.filter
                (fun a => a.staff_identifier = staff_id)))).filterMap (fun block =>
              if (block.length : Int) > max_consecutive then
                some ⟨"ND Max Consecutive", "hard"⟩
              else none))

/-- `_check_nd_count_constraint` from `validator.py` (deprecated; delegates to
`_check_nd_max_consecutive_constraint`). -/
def _check_nd_count_constraint (schedule : Schedule) (staff_dict : List Staff) :
    List ConstraintViolation :=
  _check_nd_max_consecutive_constraint schedule staff_dict

/-- `_check_nd_exceptions_constraint` from `validator.py`. -/
def _check_nd_exceptions_constraint (schedule : Schedule) (staff_dict : List Staff) :
    List ConstraintViolation :=
  schedule.assignments.filterMap (fun assignment =>
    if assignment.shift.is_night_shift then
      match staffLookup staff_dict assignment.staff_identifier with
      | none => none
      | some staff =>
          if staff.nd_exceptions.contains (isoWeekday assignment.shift.shift_date) then
            some ⟨"ND Exception Weekday", "hard"⟩
          else none
    else none)

/-- `_check_shift_eligibility` from `validator.py`: unresolvable staff yields
"Unknown Staff", ineligible staff yields "Shift Eligibility". -/
def _check_shift_eligibility (schedule : Schedule) (staff_dict : List Staff) :
    List ConstraintViolation :=
  schedule.assignments.filterMap (fun assignment =>
    match staffLookup staff_dict assignment.staff_identifier with
    | none => some ⟨"Unknown Staff", "hard"⟩
    | some staff =>
        if !staff.can_work_shift assignment.shift.shift_type assignment.shift.shift_date
        then some ⟨"Shift Eligibility", "hard"⟩
        else none)

/-- `_check_shift_coverage` from `validator.py`.  The `shift_coverage` dict is
built only from the schedule's own assignments, so every key has count ≥ 1:
the `count == 0` branch ("Shift Coverage") is kept verbatim but unreachable,
and no weekend or catalogue shift is ever examined. -/
def _check_shift_coverage (schedule : Schedule) : List ConstraintViolation :=
  let keys := dedupKeys (schedule.assignments.map
    (fun a => (a.shift.shift_date, a.shift.shift_type)))
  keys.flatMap (fun k =>
    let count := (schedule.assignments.filter
      (fun a => (a.shift.shift_date, a.shift.shift_type) = k)).length
    if k.2.isNightType then
      if count = 0 then [⟨"Shift Coverage", "hard"⟩]
      else if count > 2 then [⟨"Shift Overstaffing", "hard"⟩]
      else []
    else [])

/-- Names (per night and department) used by
`_check_abteilung_night_constraint`: the resolvable staff of the given
department assigned to the night of date `d` (list semantics, as in Python). -/
def abteilungNamesOn (schedule : Schedule) (staff_dict : List Staff) (d : Int)
    (ab : Abteilung) : List String :=
  (((schedule.assignments.filter (fun a => a.shift.is_night_shift)).filter
      (fun a => a.shift.shift_date = d)).filterMap
    (fun a => staffLookup staff_dict a.staff_identifier)).filterMap
    (fun s => if s.abteilung = ab then some s.name else none)

/-- Loop of `_check_abteilung_night_constraint` over the sorted night dates.
The Python iteration order over the dict / set of restricted departments only
affects violation order, embedded here as `[OP, STATION]`. -/
def abteilungGo (schedule : Schedule) (staff_dict : List Staff) :
    List Int → List ConstraintViolation
  | [] => []
  | d :: rest =>
      -- 1. same night: no two staff from same abteilung
      (([Abteilung.OP, Abteilung.STATION]).filterMap (fun ab =>
        if (abteilungNamesOn schedule staff_dict d ab).length ≥ 2 then
          some ⟨"Abteilung Same Night", "hard"⟩
        else none)) ++
      -- 2. consecutive days: different people of the same abteilung
      (match rest with
       | [] => []
       | d2 :: _ =>
           if d2 - d = 1 then
             ([Abteilung.OP, Abteilung.STATION]).filterMap (fun ab =>
               let today_names := abteilungNamesOn schedule staff_dict d ab
               let tomorrow_names := abteilungNamesOn schedule staff_dict d2 ab
               if today_names ≠ [] ∧ tomorrow_names ≠ [] ∧
                   (today_names.any (fun n => ¬(n ∈ tomorrow_names)) ∨
                    tomorrow_names.any (fun n => ¬(n ∈ today_names))) then
                 some ⟨"Abteilung Consecutive Days", "hard"⟩
               else none)
           else []) ++
      abteilungGo schedule staff_dict rest

/-- `_check_abteilung_night_constraint` from `validator.py`. -/
def _check_abteilung_night_constraint (schedule : Schedule) (staff_dict : List Staff) :
    List ConstraintViolation :=
  let nightAssignments := schedule.assignments.filter (fun a => a.shift.is_night_shift)
  let sorted_dates := (dedupKeys (nightAssignments.map
    (fun a => a.shift.shift_date))).insertionSort (fun a b => a ≤ b)
  abteilungGo schedule staff_dict sorted_dates

/-- The list of hard violations collected by `validate_schedule` in
`validator.py`, in source order.  The `_check_nd_max_consecutive_constraint`
line is commented out in the source ("Relaxed to soft") and therefore absent
here as well. -/
def validationHard (schedule : Schedule) (staff_list : List Staff) :
    List ConstraintViolation :=
  _check_minor_sunday_constraint schedule staff_list ++
  _check_intern_weekend_constraint schedule staff_list ++
  _check_night_pairing_constraint schedule staff_list ++
  _check_nd_alone_improper_pairing schedule staff_list ++
  _check_same_day_double_booking schedule ++
  _check_intern_night_capacity schedule staff_list ++
  _check_same_day_next_day_constraint schedule ++
  _check_three_week_block_constraint schedule ++
  _check_weekend_isolation_constraint schedule ++
  _check_min_consecutive_nights_constraint schedule staff_list ++
  _check_nd_exceptions_constraint schedule staff_list ++
  _check_shift_eligibility schedule staff_list ++
  _check_shift_coverage schedule ++
  _check_abteilung_night_constraint schedule staff_list

/-- The float soft penalty of `_calculate_soft_penalty`, kept in symbolic
parts: its value is `deviation_sq + Σ over group_variances of 10·sqrt(v) +
nd_penalty`.  The square roots are irrational, so they are carried as the list
of variances; no claim depends on them. -/
structure SoftPenalty where
  deviation_sq : ℚ
  group_variances : List ℚ
  nd_penalty : ℚ
deriving DecidableEq, Repr

/-- The `penalty += 100.0` loop over `_check_nd_count_constraint` violations at
the end of `_calculate_soft_penalty`. -/
def ndCountPenalty (schedule : Schedule) (staff_dict : List Staff) : ℚ :=
  (_check_nd_count_constraint schedule staff_dict).foldl (fun penalty _ => penalty + 100) 0

/-- One iteration of the deviation loop in `_calculate_soft_penalty`:
`target = (staff.hours / total_hours) * total_notdienst_needed` raises
`ZeroDivisionError` when `total_hours == 0`, modelled as `throw ()`. -/
def devStep (schedule : Schedule) (total_hours : Int) (total_notdienst_needed : ℚ)
    (penalty : ℚ) (staff : Staff) : Except Unit ℚ :=
  let actual_notdienst := schedule.count_total_notdienst staff.identifier (some staff)
  if total_hours = 0 then throw ()
  else
    let target := ((staff.hours : ℚ) / (total_hours : ℚ)) * total_notdienst_needed
    let deviation := |actual_notdienst - target|
    pure (penalty + deviation ^ 2)

/-- `_calculate_soft_penalty` from `validator.py`.  `Except` models the
possible `ZeroDivisionError`; the variance divisions are guarded by
`len(counts) > 1` in the source and cannot raise. -/
def _calculate_soft_penalty (schedule : Schedule) (staff_list : List Staff) :
    Except Unit SoftPenalty := do
  let total_hours : Int := (staff_list.map (fun s => s.hours)).sum
  let total_notdienst_needed : ℚ := (schedule.assignments.length : ℚ)
  let deviation_sq ←
    staff_list.foldlM (devStep schedule total_hours total_notdienst_needed) 0
  let berufKeys := dedupKeys (staff_list.map (fun s => s.beruf))
  let group_variances := berufKeys.filterMap (fun b =>
    let counts := (staff_list.filter (fun s => s.beruf = b)).map
      (fun staff => schedule.count_total_notdienst staff.identifier (some staff))
    if counts.length > 1 then
      let mean := counts.sum / (counts.length : ℚ)
      some ((counts.map (fun x => (x - mean) ^ 2)).sum / (counts.length : ℚ))
    else none)
  pure ⟨deviation_sq, group_variances, ndCountPenalty schedule staff_list⟩

/-- `class ValidationResult` from `validator.py`. -/
structure ValidationResult where
  hard_violations : List ConstraintViolation
  soft_penalty : SoftPenalty
deriving DecidableEq, Repr

/-- `validate_schedule` from `validator.py`: the hard checks (in source order)
plus the soft penalty.  The result is in `Except` because the soft-penalty
computation can raise `ZeroDivisionError`. -/
def validate_schedule (schedule : Schedule) (staff_list : List Staff) :
    Except Unit ValidationResult :=
  match _calculate_soft_penalty schedule staff_list with
  | .error e => .error e
  | .ok p => .ok ⟨validationHard schedule staff_list, p⟩

/-! ## The heuristic solver's block-compatibility test (`solver.py`) -/

/-- `staff_assignments.get(staff_id, [])` on the Python
`dict[str, list[Assignment]]`, embedded as an association list (later
duplicate keys overwrite earlier ones). -/
def assignmentsLookup (staff_assignments : List (String × List Assignment))
    (staff_id : String) : List Assignment :=
  match staff_assignments.reverse.find? (fun p => p.1 = staff_id) with
  | some p => p.2
  | none => []

/-- The backwards scan in `_is_block_compatible` that finds the start of the
last block: starting from the last assignment, walk left while the gap to the
next-later assignment is ≤ 1 day. -/
def lastBlockStartGo (next_d : Int) (block_start : Int) :
    List Assignment → Int
  | [] => block_start
  | a :: rest =>
      if next_d - a.shift.shift_date > 1 then block_start
      else lastBlockStartGo a.shift.shift_date a.shift.shift_date rest

/-- `_is_block_compatible` from `solver.py` (the heuristic solver).  Note the
source comment "Current constraint: 2 weeks (14 days)" and the `< 14` test. -/
def _is_block_compatible (staff_id : String) (check_date : Int)
    (staff_assignments : List (String × List Assignment))
    (ignore_continuity : Bool := false) : Bool :=
  let sorted_assigns := sortByDate (assignmentsLookup staff_assignments staff_id)
  match sorted_assigns.getLast? with
  | none => true
  | some last_assignment =>
      let last_date := last_assignment.shift.shift_date
      -- If extending last block (adjacent date)
      if !ignore_continuity && (check_date - last_date).natAbs ≤ 1 then true
      else
        -- Find start of last block
        let block_start :=
          lastBlockStartGo last_date last_date sorted_assigns.reverse.tail
        -- Current constraint: 2 weeks (14 days)
        if check_date - block_start < 14 then false
        else true

/-! ## Concrete fixtures for the claims -/

/-- An empty schedule over the 91-day quarter starting at day 0 (a Monday). -/
def emptySchedule : Schedule := ⟨0, 90, []⟩

/-- A TFA with `nd_max_consecutive = 1` (fixture for C2). -/
def staffM : Staff :=
  { name := "M", identifier := "M", adult := true, hours := 40, beruf := .TFA,
    abteilung := .OTHER, reception := true, nd_possible := true, nd_alone := true,
    nd_max_consecutive := some 1, nd_min_consecutive := 2, nd_exceptions := [] }

/-- Two consecutive night assignments of `staffM` (a run of 2 > max 1). -/
def schedC2 : Schedule :=
  ⟨0, 90,
    [⟨⟨.NIGHT_MON_TUE, 0, false⟩, "M", false⟩,
     ⟨⟨.NIGHT_TUE_WED, 1, false⟩, "M", false⟩]⟩

/-- C2 counterexample: `staffM` has `nd_max_consecutive = 1` and a contiguous
run of 2 night assignments (the max-consecutive check itself detects exactly
one overshoot), yet `validate_schedule`'s hard violations contain no
night-max-consecutive violation — the check is commented out of the hard
list in the source ("Relaxed to soft"). -/
theorem C2_counterexample_no_hard_violation :
    staffM.nd_max_consecutive = some 1 ∧
    (_check_nd_max_consecutive_constraint schedC2 [staffM]).length = 1 ∧
    (validationHard schedC2 [staffM]).any
      (fun v => v.constraint_name == "ND Max Consecutive" ||
        v.constraint_name == "Night Max Consecutive") = false := by
  decide

/-- C1 (code bug): over the quarter starting at day 0 the catalogue has 169
required shifts, none of which is covered by the empty schedule, yet the
validator reports no violation at all (in particular no "Shift Coverage"):
the coverage dict is built only from existing assignments, so uncovered
shifts are invisible and weekend counts are never checked. -/
theorem C1_code_bug_uncovered_shifts_unflagged :
    (generate_quarter_shifts 0).length = 169 ∧
      validate_schedule emptySchedule [] = .ok ⟨[], ⟨0, [], 0⟩⟩ := by
  constructor
  · rfl
  · rfl

/-- A single-shift block of staff "S" on day 0 (fixture for C3). -/
def assignS0 : Assignment := ⟨⟨.NIGHT_MON_TUE, 0, false⟩, "S", false⟩

/-- Staff "S" starting blocks on day 0 and day 14 (a 14-day gap). -/
def schedC3 : Schedule :=
  ⟨0, 90, [assignS0, ⟨⟨.NIGHT_MON_TUE, 14, false⟩, "S", false⟩]⟩

/-- C3 (code bug): with an existing block starting on day 0, the heuristic
solver's `_is_block_compatible` accepts a new block start on day 14 (its gap
test uses 14 days), although 14 < 21, and the validator flags the very
schedule that results with a "3-Week Block Limit" hard violation. -/
theorem C3_code_bug_heuristic_accepts_14_day_gap :
    _is_block_compatible "S" 14 [("S", [assignS0])] false = true ∧
    ((14 : Int) - 0 < 21) ∧
    (validationHard schedC3 []).any
      (fun v => v.constraint_name == "3-Week Block Limit") = true := by
  decide

/-- A TFA with `nd_min_consecutive = 1` (fixture for C4). -/
def staffK1 : Staff :=
  { name := "K", identifier := "K", adult := true, hours := 40, beruf := .TFA,
    abteilung := .OTHER, reception := true, nd_possible := true, nd_alone := true,
    nd_max_consecutive := none, nd_min_consecutive := 1, nd_exceptions := [] }

/-- A single isolated night assignment of `staffK1`. -/
def schedC4 : Schedule := ⟨0, 90, [⟨⟨.NIGHT_MON_TUE, 0, false⟩, "K", false⟩]⟩

/-- C4 counterexample: `staffK1` has `nd_min_consecutive = 1`, yet the
validator flags their single night with "Min Consecutive Nights" — the check
hardcodes the minimum 2 for every non-Azubi instead of using the staff
member's own value. -/
theorem C4_counterexample_k1_staff_flagged :
    staffK1.nd_min_consecutive = 1 ∧
    (validationHard schedC4 [staffK1]).any
      (fun v => v.constraint_name == "Min Consecutive Nights") = true := by
  decide

/-- A TFA (fixture for C5). -/
def staffT5 : Staff :=
  { name := "T", identifier := "T", adult := true, hours := 40, beruf := .TFA,
    abteilung := .OTHER, reception := true, nd_possible := true, nd_alone := true,
    nd_max_consecutive := none, nd_min_consecutive := 2, nd_exceptions := [] }

/-- One night worked alone by `staffT5` but with the stored `is_paired` flag
set to `true` (as the heuristic solver sometimes produces; spec §9). -/
def schedC5 : Schedule := ⟨0, 90, [⟨⟨.NIGHT_MON_TUE, 0, false⟩, "T", true⟩]⟩

/-- Modelled from the spec: effective-night counting with the pairing
*recomputed from the headcount on each night* instead of the stored flag
("Fairness code MUST always derive effective-night weight from the role plus
a recomputed pairing based on headcount on that night, not from the flag",
spec §9, resolution 3). -/
def count_effective_nights_by_headcount (schedule : Schedule)
    (staff_identifier : String) (staff : Staff) : ℚ :=
  let night_assignments :=
    (schedule.get_staff_assignments staff_identifier).filter
      (fun a => a.shift.is_night_shift)
  (night_assignments.map (fun a =>
    staff.effective_nights_weight
      (2 ≤ (schedule.get_shift_assignments a.shift).length))).sum

/-- C5 (code bug): on a night whose recomputed headcount is 1 (solo night),
`count_effective_nights` returns 0.5 for a TFA because it trusts the stored
`is_paired` flag, while the headcount-derived count mandated by the spec is
1.0. -/
theorem C5_code_bug_effective_nights_use_stored_flag :
    (schedC5.get_shift_assignments ⟨.NIGHT_MON_TUE, 0, false⟩).length = 1 ∧
    schedC5.count_effective_nights "T" (some staffT5) = 1/2 ∧
    count_effective_nights_by_headcount schedC5 "T" staffT5 = 1 := by
  refine ⟨by decide, ?_, ?_⟩
  · norm_num [Schedule.count_effective_nights, Schedule.get_staff_assignments,
      schedC5, staffT5, Staff.effective_nights_weight, Shift.is_night_shift,
      ShiftType.isNightType, List.filter]
    decide
  · norm_num [count_effective_nights_by_headcount, Schedule.get_staff_assignments,
      Schedule.get_shift_assignments, schedC5, staffT5, Staff.effective_nights_weight,
      Shift.is_night_shift, ShiftType.isNightType, List.filter]

/-- A staff member with `hours = 0` (fixture for C8's counterexample). -/
def staffZeroHours : Staff :=
  { name := "Z", identifier := "Z", adult := true, hours := 0, beruf := .TFA,
    abteilung := .OTHER, reception := true, nd_possible := true, nd_alone := true,
    nd_max_consecutive := none, nd_min_consecutive := 2, nd_exceptions := [] }

/-- C8 counterexample: with a nonempty staff list whose total hours are 0,
`validate_schedule` raises (`ZeroDivisionError` at
`staff.hours / total_hours`) instead of returning a ValidationResult. -/
theorem C8_counterexample_zero_total_hours_raises :
    (validate_schedule emptySchedule [staffZeroHours]).isOk = false := by
  decide

/-! ## Which names the hard checks can emit

One lemma per check function, used to show that `validate_schedule`'s hard
violations never carry the (soft-only) "ND Max Consecutive" name. -/

theorem names_minor_sunday (schedule : Schedule) (staff_dict : List Staff) :
    ∀ v ∈ _check_minor_sunday_constraint schedule staff_dict,
      v.constraint_name = "Minor Sunday Ban" := by
  intro v hv
  simp only [_check_minor_sunday_constraint] at hv
  obtain ⟨a, -, ha⟩ := List.mem_filterMap.mp hv
  repeat' split at ha
  all_goals cases ha
  all_goals rfl

theorem names_intern_weekend (schedule : Schedule) (staff_dict : List Staff) :
    ∀ v ∈ _check_intern_weekend_constraint schedule staff_dict,
      v.constraint_name = "Intern Weekend Ban" := by
  intro v hv
  simp only [_check_intern_weekend_constraint] at hv
  obtain ⟨a, -, ha⟩ := List.mem_filterMap.mp hv
  repeat' split at ha
  all_goals cases ha
  all_goals rfl

theorem names_nd_exceptions (schedule : Schedule) (staff_dict : List Staff) :
    ∀ v ∈ _check_nd_exceptions_constraint schedule staff_dict,
      v.constraint_name = "ND Exception Weekday" := by
  intro v hv
  simp only [_check_nd_exceptions_constraint] at hv
  obtain ⟨a, -, ha⟩ := List.mem_filterMap.mp hv
  repeat' split at ha
  all_goals cases ha
  all_goals rfl

theorem names_shift_eligibility (schedule : Schedule) (staff_dict : List Staff) :
    ∀ v ∈ _check_shift_eligibility schedule staff_dict,
      v.constraint_name = "Unknown Staff" ∨ v.constraint_name = "Shift Eligibility" := by
  intro v hv
  simp only [_check_shift_eligibility] at hv
  obtain ⟨a, -, ha⟩ := List.mem_filterMap.mp hv
  repeat' split at ha
  all_goals cases ha
  all_goals simp

theorem names_double_booking (schedule : Schedule) :
    ∀ v ∈ _check_same_day_double_booking schedule,
      v.constraint_name = "Same Day Double Booking" := by
  intro v hv
  simp only [_check_same_day_double_booking] at hv
  obtain ⟨a, -, ha⟩ := List.mem_filterMap.mp hv
  repeat' split at ha
  all_goals cases ha
  all_goals rfl

theorem names_nd_alone (schedule : Schedule) (staff_dict : List Staff) :
    ∀ v ∈ _check_nd_alone_improper_pairing schedule staff_dict,
      v.constraint_name = "ND Alone Improper Pairing" := by
  intro v hv
  simp only [_check_nd_alone_improper_pairing] at hv
  obtain ⟨a, -, ha⟩ := List.mem_filterMap.mp hv
  repeat' split at ha
  all_goals cases ha
  all_goals rfl

theorem names_intern_night_capacity (schedule : Schedule) (staff_dict : List Staff) :
    ∀ v ∈ _check_intern_night_capacity schedule staff_dict,
      v.constraint_name = "Intern Night No Non-Azubi" ∨
      v.constraint_name = "Vet Night Over Capacity" ∨
      v.constraint_name = "Multiple Azubis on Night" := by
  intro v hv
  simp only [_check_intern_night_capacity] at hv
  obtain ⟨k, -, ha⟩ := List.mem_flatMap.mp hv
  repeat' split at ha
  all_goals simp only [List.mem_append, List.mem_cons, List.not_mem_nil,
    or_false, false_or] at ha
  all_goals first
    | exact ha.elim
    | (obtain rfl := ha; simp)
    | (obtain rfl | rfl := ha <;> simp)

theorem names_night_pairing (schedule : Schedule) (staff_dict : List Staff) :
    ∀ v ∈ _check_night_pairing_constraint schedule staff_dict,
      v.constraint_name = "Multiple Azubis on Night" ∨
      v.constraint_name = "Azubi Night Pairing" ∨
      v.constraint_name = "Night Pairing Required" := by
  intro v hv
  simp only [_check_night_pairing_constraint] at hv
  obtain ⟨k, -, ha⟩ := List.mem_flatMap.mp hv
  simp only [List.mem_append] at ha
  rcases ha with (ha | ha) | ha
  · split at ha <;> simp_all
  · obtain ⟨s, -, hs⟩ := List.mem_filterMap.mp ha
    repeat' split at hs
    all_goals cases hs
    all_goals simp
  · obtain ⟨s, -, hs⟩ := List.mem_filterMap.mp ha
    repeat' split at hs
    all_goals cases hs
    all_goals simp

theorem names_same_day_next_day (schedule : Schedule) :
    ∀ v ∈ _check_same_day_next_day_constraint schedule,
      v.constraint_name = "Night/Day Conflict" := by
  intro v hv
  simp only [_check_same_day_next_day_constraint] at hv
  obtain ⟨sid, -, ha⟩ := List.mem_flatMap.mp hv
  obtain ⟨na, -, hb⟩ := List.mem_flatMap.mp ha
  obtain ⟨a, -, hc⟩ := List.mem_filterMap.mp hb
  repeat' split at hc
  all_goals cases hc
  all_goals rfl

theorem names_threeWeekGo (blocks : List (List Assignment)) :
    ∀ v ∈ threeWeekGo blocks, v.constraint_name = "3-Week Block Limit" := by
  induction blocks with
  | nil => intro v hv; simp [threeWeekGo] at hv
  | cons b t ih =>
      intro v hv
      simp only [threeWeekGo, List.mem_append] at hv
      rcases hv with hv | hv
      · split at hv <;> simp_all
      · exact ih v hv

theorem names_three_week (schedule : Schedule) :
    ∀ v ∈ _check_three_week_block_constraint schedule,
      v.constraint_name = "3-Week Block Limit" := by
  intro v hv
  simp only [_check_three_week_block_constraint] at hv
  obtain ⟨sid, -, ha⟩ := List.mem_flatMap.mp hv
  exact names_threeWeekGo _ v ha

theorem names_weekend_isolation (schedule : Schedule) :
    ∀ v ∈ _check_weekend_isolation_constraint schedule,
      v.constraint_name = "Weekend Isolation" := by
  intro v hv
  simp only [_check_weekend_isolation_constraint] at hv
  obtain ⟨sid, -, ha⟩ := List.mem_flatMap.mp hv
  obtain ⟨a, -, hb⟩ := List.mem_filterMap.mp ha
  repeat' split at hb
  all_goals cases hb
  all_goals rfl

theorem names_min_consec (schedule : Schedule) (staff_dict : List Staff) :
    ∀ v ∈ _check_min_consecutive_nights_constraint schedule staff_dict,
      v.constraint_name = "Min Consecutive Nights" := by
  intro v hv
  simp only [_check_min_consecutive_nights_constraint] at hv
  obtain ⟨sid, -, ha⟩ := List.mem_flatMap.mp hv
  simp only [minConsecViolationsFor] at ha
  repeat' split at ha
  all_goals simp at ha
  all_goals obtain ⟨b, -, -, rfl⟩ := ha
  all_goals rfl

theorem names_nd_max (schedule : Schedule) (staff_dict : List Staff) :
    ∀ v ∈ _check_nd_max_consecutive_constraint schedule staff_dict,
      v.constraint_name = "ND Max Consecutive" := by
  intro v hv
  simp only [_check_nd_max_consecutive_constraint] at hv
  obtain ⟨sid, -, ha⟩ := List.mem_flatMap.mp hv
  repeat' split at ha
  all_goals simp at ha
  all_goals obtain ⟨b, -, -, rfl⟩ := ha
  all_goals rfl

theorem names_shift_coverage (schedule : Schedule) :
    ∀ v ∈ _check_shift_coverage schedule,
      v.constraint_name = "Shift Coverage" ∨ v.constraint_name = "Shift Overstaffing" := by
  intro v hv
  simp only [_check_shift_coverage] at hv
  obtain ⟨k, -, ha⟩ := List.mem_flatMap.mp hv
  repeat' split at ha
  all_goals simp only [List.mem_append, List.mem_cons, List.not_mem_nil,
    or_false, false_or] at ha
  all_goals first
    | exact ha.elim
    | (obtain rfl := ha; simp)

theorem names_abteilungGo (schedule : Schedule) (staff_dict : List Staff)
    (dates : List Int) :
    ∀ v ∈ abteilungGo schedule staff_dict dates,
      v.constraint_name = "Abteilung Same Night" ∨
      v.constraint_name = "Abteilung Consecutive Days" := by
  induction dates with
  | nil => intro v hv; simp [abteilungGo] at hv
  | cons d rest ih =>
      intro v hv
      simp only [abteilungGo, List.mem_append] at hv
      rcases hv with (hv | hv) | hv
      · obtain ⟨ab, -, ha⟩ := List.mem_filterMap.mp hv
        repeat' split at ha
        all_goals cases ha
        all_goals simp
      · split at hv
        · simp at hv
        · split at hv
          · obtain ⟨ab, -, ha⟩ := List.mem_filterMap.mp hv
            repeat' split at ha
            all_goals cases ha
            all_goals simp
          · simp at hv
      · exact ih v hv

theorem names_abteilung (schedule : Schedule) (staff_dict : List Staff) :
    ∀ v ∈ _check_abteilung_night_constraint schedule staff_dict,
      v.constraint_name = "Abteilung Same Night" ∨
      v.constraint_name = "Abteilung Consecutive Days" := by
  intro v hv
  simp only [_check_abteilung_night_constraint] at hv
  exact names_abteilungGo schedule staff_dict _ v hv

/-- Every hard violation collected by the validator carries a name other than
"ND Max Consecutive" (that check is excluded from the hard list). -/
theorem validationHard_not_nd_max (schedule : Schedule) (staff_list : List Staff) :
    ∀ v ∈ validationHard schedule staff_list,
      v.constraint_name ≠ "ND Max Consecutive" := by
  intro v hv
  simp only [validationHard, List.mem_append] at hv
  rcases hv with
    (((((((((((((hv | hv) | hv) | hv) | hv) | hv) | hv) | hv) | hv) | hv) | hv) |
      hv) | hv) | hv)
  · rw [names_minor_sunday schedule staff_list v hv]; decide
  · rw [names_intern_weekend schedule staff_list v hv]; decide
  · rcases names_night_pairing schedule staff_list v hv with h | h | h <;>
      rw [h] <;> decide
  · rw [names_nd_alone schedule staff_list v hv]; decide
  · rw [names_double_booking schedule v hv]; decide
  · rcases names_intern_night_capacity schedule staff_list v hv with h | h | h <;>
      rw [h] <;> decide
  · rw [names_same_day_next_day schedule v hv]; decide
  · rw [names_three_week schedule v hv]; decide
  · rw [names_weekend_isolation schedule v hv]; decide
  · rw [names_min_consec schedule staff_list v hv]; decide
  · rw [names_nd_exceptions schedule staff_list v hv]; decide
  · rcases names_shift_eligibility schedule staff_list v hv with h | h <;>
      rw [h] <;> decide
  · rcases names_shift_coverage schedule v hv with h | h <;> rw [h] <;> decide
  · rcases names_abteilung schedule staff_list v hv with h | h <;> rw [h] <;> decide

/-! ## Claim C2 (amended): nd_max_consecutive is enforced as soft penalty only -/

theorem foldl_add_hundred (l : List ConstraintViolation) (q : ℚ) :
    l.foldl (fun penalty _ => penalty + 100) q = q + 100 * (l.length : ℚ) := by
  induction l generalizing q with
  | nil => simp
  | cons a t ih =>
      simp only [List.foldl_cons, ih, List.length_cons]
      push_cast
      ring

/-- C2 (amended): exceeding a staff member's `nd_max_consecutive` is not a
hard violation: `validate_schedule`'s hard-violation list never contains the
"ND Max Consecutive" name; instead the soft penalty's nd-count component adds
exactly 100.0 for each consecutive-night block that exceeds the staff
member's maximum. -/
theorem C2_amended_nd_max_relaxed_to_soft (schedule : Schedule)
    (staff_list : List Staff) :
    (validationHard schedule staff_list).all
      (fun v => !(v.constraint_name == "ND Max Consecutive")) = true ∧
    ndCountPenalty schedule staff_list =
      100 * ((_check_nd_max_consecutive_constraint schedule staff_list).length : ℚ) := by
  constructor
  · rw [List.all_eq_true]
    intro v hv
    have h := validationHard_not_nd_max schedule staff_list v hv
    simp [h]
  · unfold ndCountPenalty _check_nd_count_constraint
    rw [foldl_add_hundred]
    ring

/-! ## Claim C4 (amended): the min-consecutive check ignores nd_min_consecutive -/

theorem staffLookup_map_id_preserving (staff_dict : List Staff) (g : Staff → Staff)
    (hid : ∀ s, (g s).identifier = s.identifier) (identifier : String) :
    staffLookup (staff_dict.map g) identifier =
      (staffLookup staff_dict identifier).map g := by
  unfold staffLookup
  rw [← List.map_reverse, List.find?_map]
  have hpred : ((fun s => decide (s.identifier = identifier)) ∘ g) =
      (fun s => decide (s.identifier = identifier)) := by
    funext s
    simp [Function.comp, hid]
  rw [hpred]

theorem minConsecViolationsFor_nd_min_invariant (staff_dict : List Staff)
    (f : Staff → Int) (staff_id : String) (nights : List Assignment) :
    minConsecViolationsFor
        (staff_dict.map (fun s => { s with nd_min_consecutive := f s })) staff_id
        nights =
      minConsecViolationsFor staff_dict staff_id nights := by
  unfold minConsecViolationsFor
  rw [staffLookup_map_id_preserving staff_dict
    (fun s => { s with nd_min_consecutive := f s }) (fun s => rfl)]
  cases staffLookup staff_dict staff_id with
  | none => rfl
  | some st => rfl

/-- C4 (amended): the validator's min-consecutive-nights check never reads
`nd_min_consecutive` — its output is unchanged under arbitrary modification of
every staff member's `nd_min_consecutive` value (it applies the fixed minimum
2 to every non-Azubi and skips Azubis). -/
theorem C4_amended_min_consec_ignores_nd_min (schedule : Schedule)
    (staff_dict : List Staff) (f : Staff → Int) :
    _check_min_consecutive_nights_constraint schedule
        (staff_dict.map (fun s => { s with nd_min_consecutive := f s })) =
      _check_min_consecutive_nights_constraint schedule staff_dict := by
  simp only [_check_min_consecutive_nights_constraint]
  congr 1
  funext staff_id
  exact minConsecViolationsFor_nd_min_invariant staff_dict f staff_id _

/-! ## Claim C8 (amended): totality of the validator and Unknown Staff -/

theorem foldlM_devStep_ok (schedule : Schedule) (total_hours : Int)
    (total_notdienst_needed : ℚ) (h : total_hours ≠ 0) (l : List Staff) (q : ℚ) :
    ∃ r, l.foldlM (devStep schedule total_hours total_notdienst_needed) q =
      Except.ok r := by
  induction l generalizing q with
  | nil => exact ⟨q, rfl⟩
  | cons s t ih =>
      have hstep : devStep schedule total_hours total_notdienst_needed q s =
          Except.ok (q + |schedule.count_total_notdienst s.identifier (some s) -
            ((s.hours : ℚ) / (total_hours : ℚ)) * total_notdienst_needed| ^ 2) := by
        unfold devStep
        rw [if_neg h]
        rfl
      rw [List.foldlM_cons, hstep]
      exact ih _


theorem calc_soft_penalty_ok (schedule : Schedule) (staff_list : List Staff)
    (h : staff_list = [] ∨ (staff_list.map (fun s => s.hours)).sum ≠ 0) :
    ∃ p, _calculate_soft_penalty schedule staff_list = Except.ok p := by
  rcases h with h | h
  · subst h
    exact ⟨_, rfl⟩
  · obtain ⟨r, hr⟩ := foldlM_devStep_ok schedule
      ((staff_list.map (fun s => s.hours)).sum) ((schedule.assignments.length : ℚ))
      h staff_list 0
    simp only [_calculate_soft_penalty]
    rw [hr]
    exact ⟨_, rfl⟩

/-- C8 (amended): whenever the staff list is empty or its total hours are
nonzero (in particular for any staff list respecting the data model's
`hours ≥ 1`), `validate_schedule` returns a ValidationResult without raising,
and whenever an assignment's `staff_identifier` does not resolve in the staff
list, the hard violations contain an "Unknown Staff" entry. -/
theorem C8_amended_validator_total_and_unknown_staff (schedule : Schedule)
    (staff_list : List Staff)
    (h : staff_list = [] ∨ (staff_list.map (fun s => s.hours)).sum ≠ 0) :
    (validate_schedule schedule staff_list).isOk = true ∧
    ∀ a ∈ schedule.assignments, staffLookup staff_list a.staff_identifier = none →
      (validationHard schedule staff_list).any
        (fun v => v.constraint_name == "Unknown Staff") = true := by
  constructor
  · obtain ⟨p, hp⟩ := calc_soft_penalty_ok schedule staff_list h
    unfold validate_schedule
    rw [hp]
    rfl
  · intro a ha hnone
    rw [List.any_eq_true]
    refine ⟨⟨"Unknown Staff", "hard"⟩, ?_, by decide⟩
    have hmem : (⟨"Unknown Staff", "hard"⟩ : ConstraintViolation) ∈
        _check_shift_eligibility schedule staff_list := by
      unfold _check_shift_eligibility
      refine List.mem_filterMap.mpr ⟨a, ha, ?_⟩
      rw [hnone]
    unfold validationHard
    simp only [List.mem_append]
    tauto

/-- A schedule with a single assignment referencing an identifier absent from
the (empty) staff list — concrete instance for C8's amended claim. -/
def schedGhost : Schedule := ⟨0, 90, [⟨⟨.NIGHT_MON_TUE, 0, false⟩, "GHOST", false⟩]⟩

/-- Witness for C8: at the concrete `schedGhost` with the empty staff list the
amended claim's hypotheses hold, the validator returns a result, and the
Unknown Staff violation is reported. -/
theorem C8_amended_witness :
    (validate_schedule schedGhost []).isOk = true ∧
    (validationHard schedGhost []).any
      (fun v => v.constraint_name == "Unknown Staff") = true := by
  have h := C8_amended_validator_total_and_unknown_staff schedGhost [] (Or.inl rfl)
  exact ⟨h.1, h.2 ⟨⟨.NIGHT_MON_TUE, 0, false⟩, "GHOST", false⟩ (by decide) (by decide)⟩

/-! ## Claim C9: carry-forward neutrality (spec-modelled)

`compute_carry_forward` and `build_previous_context` are imported from
`app.scheduler.models` by `tests/test_carry_forward.py` and by the CP-SAT
solver, but their definitions are not among the provided sources; they are
modelled from spec §4.3 below. -/

/-- `CarryForwardEntry` (spec §3). -/
structure CarryForwardEntry where
  identifier : String
  name : String
  beruf : Beruf
  hours : Int
  effective_nights : ℚ
  weekend_shifts : Int
  total_notdienst : ℚ
  normalized_40h : ℚ
  group_mean_40h : ℚ
  carry_forward_delta : ℚ
deriving DecidableEq, Repr

/-- Modelled from the spec (§4.3 step 2): presence-adjusted normalized load
`normalized_40h = (total_notdienst / weekly_hours) × 40 × (quarter_days /
available_days)`, with `available_days = 0` treated as 1. -/
def cfNormalized (schedule : Schedule) (vacations : List Vacation) (staff : Staff) :
    ℚ :=
  let quarter_days : Int := (schedule.quarter_end - schedule.quarter_start) + 1
  let available_days := calculate_available_days staff.identifier vacations
    schedule.quarter_start schedule.quarter_end
  let available_days := if available_days = 0 then 1 else available_days
  (schedule.count_total_notdienst staff.identifier (some staff)) / (staff.hours : ℚ)
    * 40 * ((quarter_days : ℚ) / (available_days : ℚ))

/-- Modelled from the spec (§4.3 step 3): the arithmetic mean of
`normalized_40h` over a role group (0 for an empty group). -/
def cfGroupMean (schedule : Schedule) (staff_list : List Staff)
    (vacations : List Vacation) (b : Beruf) : ℚ :=
  let group := staff_list.filter (fun s => s.beruf = b)
  if group.length = 0 then 0
  else ((group.map (cfNormalized schedule vacations)).sum) / (group.length : ℚ)

/-- Modelled from the spec (§3, §4.3): the carry-forward record of one staff
member, with `carry_forward_delta = normalized_40h − group_mean_40h`. -/
def cfEntry (schedule : Schedule) (staff_list : List Staff)
    (vacations : List Vacation) (staff : Staff) : CarryForwardEntry :=
  { identifier := staff.identifier
    name := staff.name
    beruf := staff.beruf
    hours := staff.hours
    effective_nights := schedule.count_effective_nights staff.identifier (some staff)
    weekend_shifts := schedule.count_weekend_shifts staff.identifier
    total_notdienst := schedule.count_total_notdienst staff.identifier (some staff)
    normalized_40h := cfNormalized schedule vacations staff
    group_mean_40h := cfGroupMean schedule staff_list vacations staff.beruf
    carry_forward_delta := cfNormalized schedule vacations staff -
      cfGroupMean schedule staff_list vacations staff.beruf }

/-- Modelled from the spec (§4.3): `compute_carry_forward` emits one
`CarryForwardEntry` per staff member of the completed schedule's staff list. -/
def compute_carry_forward (schedule : Schedule) (staff_list : List Staff)
    (vacations : List Vacation := []) : List CarryForwardEntry :=
  staff_list.map (cfEntry schedule staff_list vacations)

theorem list_map_sub_sum {α} (l : List α) (f : α → ℚ) (m : ℚ) :
    (l.map (fun s => f s - m)).sum = (l.map f).sum - (l.length : ℚ) * m := by
  induction l with
  | nil => simp
  | cons a t ih =>
      simp only [List.map_cons, List.sum_cons, ih, List.length_cons]
      push_cast
      ring

theorem sum_sub_mean_eq_zero (F : List Staff) (f : Staff → ℚ) :
    (F.map (fun s => f s -
      (if F.length = 0 then 0 else (F.map f).sum / (F.length : ℚ)))).sum = 0 := by
  rcases eq_or_ne F.length 0 with h0 | hne
  · have hF : F = [] := List.length_eq_zero.mp h0
    simp [hF]
  · rw [if_neg hne, list_map_sub_sum]
    have hQ : (F.length : ℚ) ≠ 0 := Nat.cast_ne_zero.mpr hne
    field_simp

/-- C9: within every role group, the `carry_forward_delta` values emitted by
`compute_carry_forward` sum to exactly 0 (hence within the 0.01 tolerance),
and there is exactly one entry per staff member. -/
theorem C9_carry_forward_group_neutrality (schedule : Schedule)
    (staff_list : List Staff) (vacations : List Vacation) (b : Beruf) :
    |(((compute_carry_forward schedule staff_list vacations).filter
        (fun e => e.beruf = b)).map (fun e => e.carry_forward_delta)).sum| < 1/100 ∧
    (compute_carry_forward schedule staff_list vacations).map (fun e => e.identifier)
      = staff_list.map (fun s => s.identifier) := by
  have hsum : (((compute_carry_forward schedule staff_list vacations).filter
      (fun e => e.beruf = b)).map (fun e => e.carry_forward_delta)).sum = 0 := by
    unfold compute_carry_forward
    rw [List.filter_map, List.map_map]
    have hpred : ((fun e => decide (e.beruf = b)) ∘ cfEntry schedule staff_list vacations)
        = (fun s => decide (s.beruf = b)) := rfl
    rw [hpred]
    have hdelta : ((fun e => e.carry_forward_delta) ∘ cfEntry schedule staff_list vacations)
        = (fun s => cfNormalized schedule vacations s -
            cfGroupMean schedule staff_list vacations s.beruf) := rfl
    rw [hdelta]
    have hcongr : (staff_list.filter (fun s => decide (s.beruf = b))).map
        (fun s => cfNormalized schedule vacations s -
          cfGroupMean schedule staff_list vacations s.beruf) =
        (staff_list.filter (fun s => decide (s.beruf = b))).map
        (fun s => cfNormalized schedule vacations s -
          cfGroupMean schedule staff_list vacations b) := by
      apply List.map_congr_left
      intro s hs
      have hb : s.beruf = b := by
        have := (List.mem_filter.mp hs).2
        simpa using this
      rw [hb]
    rw [hcongr]
    unfold cfGroupMean
    exact sum_sub_mean_eq_zero _ _
  constructor
  · rw [hsum]
    norm_num
  · unfold compute_carry_forward
    rw [List.map_map]
    rfl

/-! ## Claim C10: available days -/

theorem mem_get_dates (v : Vacation) (d : Int) :
    d ∈ v.get_dates ↔ v.start_date ≤ d ∧ d ≤ v.end_date := by
  unfold Vacation.get_dates
  simp only [List.mem_map, List.mem_range]
  constructor
  · rintro ⟨i, hi, rfl⟩
    omega
  · rintro ⟨h1, h2⟩
    refine ⟨(d - v.start_date).toNat, by omega, by omega⟩

theorem mem_insert_fold (ds : List Int) (acc : List Int) (x : Int) :
    x ∈ ds.foldl (fun acc2 d => if d ∈ acc2 then acc2 else acc2 ++ [d]) acc ↔
      x ∈ acc ∨ x ∈ ds := by
  induction ds generalizing acc with
  | nil => simp
  | cons d t ih =>
      simp only [List.foldl_cons]
      rw [ih]
      by_cases h : d ∈ acc
      · rw [if_pos h]
        simp only [List.mem_cons]
        constructor
        · rintro (hx | hx)
          · exact Or.inl hx
          · exact Or.inr (Or.inr hx)
        · rintro (hx | rfl | hx)
          · exact Or.inl hx
          · exact Or.inl h
          · exact Or.inr hx
      · rw [if_neg h]
        simp only [List.mem_append, List.mem_singleton, List.mem_cons]
        tauto

theorem nodup_insert_fold (ds : List Int) (acc : List Int) (h : acc.Nodup) :
    (ds.foldl (fun acc2 d => if d ∈ acc2 then acc2 else acc2 ++ [d]) acc).Nodup := by
  induction ds generalizing acc with
  | nil => exact h
  | cons d t ih =>
      simp only [List.foldl_cons]
      by_cases hd : d ∈ acc
      · rw [if_pos hd]
        exact ih acc h
      · rw [if_neg hd]
        refine ih _ ?_
        simp [List.nodup_append, h, hd]

theorem mem_unavail_fold (t : List Vacation) (id : String) (x : Int)
    (acc : List Int) :
    x ∈ t.foldl (fun acc v => if v.identifier = id then
        v.get_dates.foldl (fun acc2 d => if d ∈ acc2 then acc2 else acc2 ++ [d]) acc
      else acc) acc ↔
      x ∈ acc ∨ ∃ v ∈ t, v.identifier = id ∧ v.start_date ≤ x ∧ x ≤ v.end_date := by
  induction t generalizing acc with
  | nil => simp
  | cons vc rest ih =>
      simp only [List.foldl_cons]
      by_cases hid : vc.identifier = id
      · rw [if_pos hid, ih, mem_insert_fold, mem_get_dates]
        constructor
        · rintro ((hx | ⟨h1, h2⟩) | hv)
          · exact Or.inl hx
          · exact Or.inr ⟨vc, List.mem_cons_self vc rest, hid, h1, h2⟩
          · obtain ⟨v, hv1, hv2⟩ := hv
            exact Or.inr ⟨v, List.mem_cons_of_mem vc hv1, hv2⟩
        · rintro (hx | ⟨v, hv1, hv2, hv3, hv4⟩)
          · exact Or.inl (Or.inl hx)
          · rcases List.mem_cons.mp hv1 with rfl | hv1
            · exact Or.inl (Or.inr ⟨hv3, hv4⟩)
            · exact Or.inr ⟨v, hv1, hv2, hv3, hv4⟩
      · rw [if_neg hid, ih]
        constructor
        · rintro (hx | ⟨v, hv1, hv2⟩)
          · exact Or.inl hx
          · exact Or.inr ⟨v, List.mem_cons_of_mem vc hv1, hv2⟩
        · rintro (hx | ⟨v, hv1, hv2, hv3, hv4⟩)
          · exact Or.inl hx
          · rcases List.mem_cons.mp hv1 with rfl | hv1
            · exact absurd hv2 hid
            · exact Or.inr ⟨v, hv1, hv2, hv3, hv4⟩

theorem nodup_unavail_fold (t : List Vacation) (id : String) (acc : List Int)
    (h : acc.Nodup) :
    (t.foldl (fun acc v => if v.identifier = id then
        v.get_dates.foldl (fun acc2 d => if d ∈ acc2 then acc2 else acc2 ++ [d]) acc
      else acc) acc).Nodup := by
  induction t generalizing acc with
  | nil => exact h
  | cons vc rest ih =>
      simp only [List.foldl_cons]
      by_cases hid : vc.identifier = id
      · rw [if_pos hid]
        exact ih _ (nodup_insert_fold _ _ h)
      · rw [if_neg hid]
        exact ih _ h

theorem mem_unavailable (vacations : List Vacation) (id : String) (x : Int) :
    x ∈ get_staff_unavailable_dates vacations id ↔
      ∃ v ∈ vacations, v.identifier = id ∧ v.start_date ≤ x ∧ x ≤ v.end_date := by
  unfold get_staff_unavailable_dates
  rw [mem_unavail_fold]
  simp

theorem nodup_unavailable (vacations : List Vacation) (id : String) :
    (get_staff_unavailable_dates vacations id).Nodup := by
  unfold get_staff_unavailable_dates
  exact nodup_unavail_fold vacations id [] List.nodup_nil

/-- C10: `calculate_available_days` equals the inclusive quarter length minus
the number of *distinct* dates inside `[quarter_start, quarter_end]` on which
the staff member has some vacation — duplicate or overlapping vacation
entries never count twice, and vacation days outside the quarter are
ignored. -/
theorem C10_available_days_distinct_in_quarter (staff_identifier : String)
    (vacations : List Vacation) (quarter_start quarter_end : Int) :
    calculate_available_days staff_identifier vacations quarter_start quarter_end =
      (quarter_end - quarter_start + 1) -
        ((Finset.Icc quarter_start quarter_end).filter (fun d =>
          ∃ v ∈ vacations, v.identifier = staff_identifier ∧
            v.start_date ≤ d ∧ d ≤ v.end_date)).card := by
  simp only [calculate_available_days]
  have hnd : ((get_staff_unavailable_dates vacations staff_identifier).filter
      (fun d => quarter_start ≤ d && d ≤ quarter_end)).Nodup :=
    (nodup_unavailable vacations staff_identifier).filter _
  have hset : ((get_staff_unavailable_dates vacations staff_identifier).filter
      (fun d => quarter_start ≤ d && d ≤ quarter_end)).toFinset =
      (Finset.Icc quarter_start quarter_end).filter (fun d =>
        ∃ v ∈ vacations, v.identifier = staff_identifier ∧
          v.start_date ≤ d ∧ d ≤ v.end_date) := by
    apply Finset.ext
    intro d
    simp only [List.mem_toFinset, List.mem_filter, mem_unavailable, Finset.mem_filter,
      Finset.mem_Icc, Bool.and_eq_true, decide_eq_true_eq]
    tauto
  rw [← List.toFinset_card_of_nodup hnd, hset]

end Scheduling
